import Mathlib

/-!
Shallow embedding of the 2D rigid-body physics engine of
`crates/profesor-sim/src/physics.rs` (types `Vec2`, `RigidBody`,
`PhysicsWorld`) and of the index-based position queries of
`crates/profesor/src/wasm.rs`.

Machine `f32` arithmetic is modelled by exact rational arithmetic (`ℚ`);
`libm::sqrtf` is modelled by `ratSqrt`, which is exact on perfect squares
(every square root taken in the concrete scenarios verified below is a
perfect square, where `sqrtf` is also exact). `f32::EPSILON` is `2^-23`.
Rust float-special values (NaN, ±∞) do not exist in `ℚ`; where a claim is
about them, the small domain `FVal` (`ℚ` extended with NaN and ±∞) models
the comparison semantics of Rust's `f32::max` / `f32::clamp`.
-/

/-- Model of `libm::sqrtf` on `ℚ`: integer square root of numerator over
integer square root of denominator. Exact whenever the argument is the
square of a rational whose numerator and denominator are perfect squares
(in particular on squares of naturals), and `ratSqrt 0 = 0`. -/
def ratSqrt (q : ℚ) : ℚ :=
  (Nat.sqrt q.num.toNat : ℚ) / (Nat.sqrt q.den : ℚ)

/-- Source `f32::EPSILON = 2^-23`. -/
def f32EPSILON : ℚ := 1 / 2 ^ 23

/-- Source `Vec2` (physics.rs): a 2D vector with `f32` components, modelled on `ℚ`. -/
structure Vec2 where
  x : ℚ
  y : ℚ
deriving DecidableEq, Repr

namespace Vec2

/-- Source `Vec2::ZERO`. -/
def ZERO : Vec2 := ⟨0, 0⟩

/-- Source `Vec2::new`. -/
def new (x y : ℚ) : Vec2 := ⟨x, y⟩

/-- Source `Vec2::magnitude`: `sqrt(x*x + y*y)`. -/
def magnitude (v : Vec2) : ℚ := ratSqrt (v.x * v.x + v.y * v.y)

/-- Source `Vec2::normalize`: divide by the magnitude if it exceeds `f32::EPSILON`,
else return the zero vector. -/
def normalize (v : Vec2) : Vec2 :=
  let mag := v.magnitude
  if mag > f32EPSILON then ⟨v.x / mag, v.y / mag⟩ else ZERO

/-- Source `Vec2::dot`. -/
def dot (v other : Vec2) : ℚ := v.x * other.x + v.y * other.y

/-- Source `Vec2::scale`. -/
def scale (v : Vec2) (factor : ℚ) : Vec2 := ⟨v.x * factor, v.y * factor⟩

/-- Source `Vec2::add`. -/
def add (v other : Vec2) : Vec2 := ⟨v.x + other.x, v.y + other.y⟩

/-- Source `Vec2::sub`. -/
def sub (v other : Vec2) : Vec2 := ⟨v.x - other.x, v.y - other.y⟩

end Vec2

/-- Source `RigidBody` (physics.rs): a circular point-mass. -/
structure RigidBody where
  position : Vec2
  velocity : Vec2
  acceleration : Vec2
  mass : ℚ
  restitution : ℚ
  radius : ℚ
deriving DecidableEq, Repr

namespace RigidBody

/-- Source `RigidBody::new`: defaults mass `1.0`, restitution `0.8`, radius `10.0`,
zero velocity and acceleration. -/
def new (x y : ℚ) : RigidBody :=
  { position := Vec2.new x y
    velocity := Vec2.ZERO
    acceleration := Vec2.ZERO
    mass := 1
    restitution := 8 / 10
    radius := 10 }

/-- Source `RigidBody::apply_force`: accumulate `force / mass` into acceleration. -/
def apply_force (b : RigidBody) (force : Vec2) : RigidBody :=
  { b with acceleration := b.acceleration.add (force.scale (1 / b.mass)) }

/-- Source `RigidBody::apply_impulse`: add `impulse / mass` to velocity. -/
def apply_impulse (b : RigidBody) (impulse : Vec2) : RigidBody :=
  { b with velocity := b.velocity.add (impulse.scale (1 / b.mass)) }

/-- Source `RigidBody::kinetic_energy`: `0.5 * mass * |velocity|²`. -/
def kinetic_energy (b : RigidBody) : ℚ :=
  (1 / 2) * b.mass * b.velocity.dot b.velocity

end RigidBody

/-- The default body used to read a list element by index (the Rust code
indexes with `[]` only at indices that are in range, so the default is
never the value actually used). -/
def dfltBody : RigidBody := RigidBody.new 0 0

/-- Source `PhysicsWorld` (physics.rs). -/
structure PhysicsWorld where
  bodies : List RigidBody
  gravity : Vec2
  dt : ℚ
  bounds : Option (ℚ × ℚ × ℚ × ℚ)
deriving DecidableEq, Repr

namespace PhysicsWorld

/-- Source `PhysicsWorld::new`: gravity `(0, 9.81)`, `dt = 1/60`, no bounds. -/
def new : PhysicsWorld :=
  { bodies := []
    gravity := Vec2.new 0 (981 / 100)
    dt := 1 / 60
    bounds := none }

/-- Source `PhysicsWorld::with_gravity`. -/
def with_gravity (w : PhysicsWorld) (gravity : Vec2) : PhysicsWorld :=
  { w with gravity := gravity }

/-- Source `PhysicsWorld::with_dt`: `dt` is clamped to at least `0.001`. -/
def with_dt (w : PhysicsWorld) (dt : ℚ) : PhysicsWorld :=
  { w with dt := max dt (1 / 1000) }

/-- Source `PhysicsWorld::with_bounds`. -/
def with_bounds (w : PhysicsWorld) (min_x min_y max_x max_y : ℚ) : PhysicsWorld :=
  { w with bounds := some (min_x, min_y, max_x, max_y) }

/-- Source `PhysicsWorld::add_body`. -/
def add_body (w : PhysicsWorld) (body : RigidBody) : PhysicsWorld :=
  { w with bodies := w.bodies ++ [body] }

/-- Source `PhysicsWorld::body_count`. -/
def body_count (w : PhysicsWorld) : ℕ := w.bodies.length

/-- Source `PhysicsWorld::total_kinetic_energy`. -/
def total_kinetic_energy (w : PhysicsWorld) : ℚ :=
  (w.bodies.map RigidBody.kinetic_energy).sum

/-- Source `PhysicsWorld::check_collision`: squared distance between centers
strictly below the square of the sum of radii. -/
def check_collision (w : PhysicsWorld) (i j : ℕ) : Bool :=
  let a := w.bodies.getD i dfltBody
  let b := w.bodies.getD j dfltBody
  let diff := a.position.sub b.position
  let dist_sq := diff.dot diff
  let min_dist := a.radius + b.radius
  decide (dist_sq < min_dist * min_dist)

/-- Source `PhysicsWorld::resolve_collision`: impulse-based resolution of the pair
`(i, j)`, followed by positional separation of overlapping bodies. The
velocity writes use the snapshots of the two bodies taken on entry, exactly
as the Rust code does. -/
def resolve_collision (w : PhysicsWorld) (i j : ℕ) : PhysicsWorld :=
  let a := w.bodies.getD i dfltBody
  let b := w.bodies.getD j dfltBody
  let normal := (b.position.sub a.position).normalize
  let rel_vel := a.velocity.sub b.velocity
  let vel_along_normal := rel_vel.dot normal
  if vel_along_normal > 0 then w
  else
    let e := (a.restitution + b.restitution) / 2
    let impulse_mag := -(1 + e) * vel_along_normal / (1 / a.mass + 1 / b.mass)
    let impulse := normal.scale impulse_mag
    let bodies1 := w.bodies.set i
      { a with velocity := a.velocity.sub (impulse.scale (1 / a.mass)) }
    let bodies2 := bodies1.set j
      { b with velocity := b.velocity.add (impulse.scale (1 / b.mass)) }
    let diff := b.position.sub a.position
    let dist := diff.magnitude
    let overlap := a.radius + b.radius - dist
    if overlap > 0 then
      let separation := normal.scale (overlap / 2)
      let bodies3 := bodies2.set i
        { bodies2.getD i dfltBody with position := a.position.sub separation }
      let bodies4 := bodies3.set j
        { bodies3.getD j dfltBody with position := b.position.add separation }
      { w with bodies := bodies4 }
    else
      { w with bodies := bodies2 }

/-- Source `PhysicsWorld::resolve_collisions`: nested `(i, j)` loop over all pairs
`i < j` below the body count, resolving each pair that checks as colliding
in the current (already partly updated) world. -/
def resolve_collisions (w : PhysicsWorld) : PhysicsWorld :=
  let len := w.bodies.length
  (List.range len).foldl
    (fun acc i =>
      (List.range' (i + 1) (len - (i + 1))).foldl
        (fun acc2 j =>
          if acc2.check_collision i j then acc2.resolve_collision i j else acc2)
        acc)
    w

/-- The integration phase of `PhysicsWorld::step` for one body: apply the
gravity force, integrate velocity then position (semi-implicit Euler), and
reset the acceleration to zero. -/
def integrateBody (gravity : Vec2) (dt : ℚ) (body : RigidBody) : RigidBody :=
  let b1 := body.apply_force (gravity.scale body.mass)
  let b2 := { b1 with velocity := b1.velocity.add (b1.acceleration.scale dt) }
  let b3 := { b2 with position := b2.position.add (b2.velocity.scale dt) }
  { b3 with acceleration := Vec2.ZERO }

/-- The boundary phase of `PhysicsWorld::step` for one body: each of the four
edges is checked independently, in the order left, right, top, bottom;
crossing an edge clamps the position tangent to it and reflects the
perpendicular velocity component scaled by restitution. -/
def boundBody (min_x min_y max_x max_y : ℚ) (body : RigidBody) : RigidBody :=
  let b := body
  let b := if b.position.x - b.radius < min_x then
      { b with position := { b.position with x := min_x + b.radius }
               velocity := { b.velocity with x := -b.velocity.x * b.restitution } }
    else b
  let b := if b.position.x + b.radius > max_x then
      { b with position := { b.position with x := max_x - b.radius }
               velocity := { b.velocity with x := -b.velocity.x * b.restitution } }
    else b
  let b := if b.position.y - b.radius < min_y then
      { b with position := { b.position with y := min_y + b.radius }
               velocity := { b.velocity with y := -b.velocity.y * b.restitution } }
    else b
  let b := if b.position.y + b.radius > max_y then
      { b with position := { b.position with y := max_y - b.radius }
               velocity := { b.velocity with y := -b.velocity.y * b.restitution } }
    else b
  b

/-- Source `PhysicsWorld::step`: integration, then boundary collisions (if bounds
are set), then pairwise collision resolution. -/
def step (w : PhysicsWorld) : PhysicsWorld :=
  let w1 := { w with bodies := w.bodies.map (integrateBody w.gravity w.dt) }
  let w2 :=
    match w1.bounds with
    | some (min_x, min_y, max_x, max_y) =>
        { w1 with bodies := w1.bodies.map (boundBody min_x min_y max_x max_y) }
    | none => w1
  w2.resolve_collisions

end PhysicsWorld

/-- Source `physics_body_x` (wasm.rs), for a valid handle: the indexed body's
`position.x`, or `0.0` when the index is out of range. -/
def physics_body_x (w : PhysicsWorld) (index : ℕ) : ℚ :=
  ((w.bodies.get? index).map (fun b => b.position.x)).getD 0

/-- Source `physics_body_y` (wasm.rs), for a valid handle: the indexed body's
`position.y`, or `0.0` when the index is out of range. -/
def physics_body_y (w : PhysicsWorld) (index : ℕ) : ℚ :=
  ((w.bodies.get? index).map (fun b => b.position.y)).getD 0

/-! ### The concrete worlds of the claims -/

/-- The world of claim C3: gravity `(0, 10)`, `dt = 0.1`, no bounds, one body
of mass `1` at the origin with zero velocity and acceleration. -/
def gravityWorld : PhysicsWorld :=
  { bodies := [{ position := Vec2.new 0 0
                 velocity := Vec2.ZERO
                 acceleration := Vec2.ZERO
                 mass := 1
                 restitution := 8 / 10
                 radius := 10 }]
    gravity := Vec2.new 0 10
    dt := 1 / 10
    bounds := none }

/-- The world of claim C4: bounds `(0, 0, 100, 100)`, zero gravity,
`dt = 0.1`, one body at `(5, 50)` with radius `10`, restitution `0.8`,
velocity `(-100, 0)`. -/
def leftWallWorld : PhysicsWorld :=
  { bodies := [{ position := Vec2.new 5 50
                 velocity := Vec2.new (-100) 0
                 acceleration := Vec2.ZERO
                 mass := 1
                 restitution := 8 / 10
                 radius := 10 }]
    gravity := Vec2.ZERO
    dt := 1 / 10
    bounds := some (0, 0, 100, 100) }

/-- The world of claim C1: two overlapping equal-mass bodies of restitution
`1.0` at `(0,0)` and `(15,0)` (radii `10`, so they overlap), approaching
head-on along their line of centers with velocities `(5,0)` and `(-5,0)`. -/
def headOnWorld : PhysicsWorld :=
  { bodies := [{ position := Vec2.new 0 0
                 velocity := Vec2.new 5 0
                 acceleration := Vec2.ZERO
                 mass := 1
                 restitution := 1
                 radius := 10 },
               { position := Vec2.new 15 0
                 velocity := Vec2.new (-5) 0
                 acceleration := Vec2.ZERO
                 mass := 1
                 restitution := 1
                 radius := 10 }]
    gravity := Vec2.ZERO
    dt := 1 / 10
    bounds := none }

/-- The world of C7's witness: two bodies whose centers coincide at `(2, 3)`. -/
def coincidentWorld : PhysicsWorld :=
  { bodies := [{ position := Vec2.new 2 3
                 velocity := Vec2.new 1 0
                 acceleration := Vec2.ZERO
                 mass := 1
                 restitution := 8 / 10
                 radius := 10 },
               { position := Vec2.new 2 3
                 velocity := Vec2.new 0 2
                 acceleration := Vec2.ZERO
                 mass := 1
                 restitution := 8 / 10
                 radius := 10 }]
    gravity := Vec2.ZERO
    dt := 1 / 10
    bounds := none }

/-- The world of C2's witness: two bodies of radius `10` whose centers are
`100` apart, so they are separated. -/
def apartWorld : PhysicsWorld :=
  { bodies := [RigidBody.new 0 0, RigidBody.new 100 0]
    gravity := Vec2.ZERO
    dt := 1 / 10
    bounds := none }

/-- An `f32` value for the builder-setter claims: a rational, NaN, or ±∞.
Needed because the claim quantifies over NaN and infinite inputs, which have
no image in `ℚ`. -/
inductive FVal where
  | nan : FVal
  | inf : FVal
  | ninf : FVal
  | fin (q : ℚ) : FVal
deriving DecidableEq, Repr

/-- IEEE-754 `<` on `FVal`: any comparison with NaN is false. -/
def flt : FVal → FVal → Bool
  | .nan, _ => false
  | _, .nan => false
  | .ninf, .ninf => false
  | .ninf, _ => true
  | _, .ninf => false
  | .inf, _ => false
  | _, .inf => true
  | .fin p, .fin q => decide (p < q)

/-- IEEE-754 `≤` on `FVal`: any comparison with NaN is false. -/
def fle : FVal → FVal → Bool
  | .nan, _ => false
  | _, .nan => false
  | .ninf, _ => true
  | _, .ninf => false
  | .inf, .inf => true
  | .inf, .fin _ => false
  | .fin _, .inf => true
  | .fin p, .fin q => decide (p ≤ q)

/-- Rust `f32::max` (IEEE maxNum): if one argument is NaN the other is
returned; otherwise the larger. -/
def fmax (a b : FVal) : FVal :=
  match a, b with
  | .nan, b => b
  | a, .nan => a
  | a, b => if flt a b then b else a

/-- Rust `f32::clamp`: `if self < min { self = min }; if self > max
{ self = max }` — a NaN `self` falls through both tests and is returned
unchanged (Rust documents that `clamp` returns NaN for a NaN input). -/
def fclamp (x lo hi : FVal) : FVal :=
  let x1 := if flt x lo then lo else x
  if flt hi x1 then hi else x1

/-- The mass stored by `RigidBody::with_mass`: `mass.max(0.001)`. -/
def with_mass_val (mass : FVal) : FVal := fmax mass (FVal.fin (1 / 1000))

/-- The restitution stored by `RigidBody::with_restitution`:
`restitution.clamp(0.0, 1.0)`. -/
def with_restitution_val (restitution : FVal) : FVal :=
  fclamp restitution (FVal.fin 0) (FVal.fin 1)

/-- The radius stored by `RigidBody::with_radius`: `radius.max(0.1)`. -/
def with_radius_val (radius : FVal) : FVal := fmax radius (FVal.fin (1 / 10))

/-- The timestep stored by `PhysicsWorld::with_dt`: `dt.max(0.001)`. -/
def with_dt_val (dt : FVal) : FVal := fmax dt (FVal.fin (1 / 1000))

/-! ### Helper lemmas -/

lemma ratSqrt_natCast_sq (n : ℕ) : ratSqrt ((n : ℚ) * (n : ℚ)) = (n : ℚ) := by
  have h1 : ((n : ℚ) * (n : ℚ)) = ((n * n : ℕ) : ℚ) := by push_cast; ring
  rw [h1]
  unfold ratSqrt
  rw [Rat.num_natCast, Rat.den_natCast, Int.toNat_natCast, Nat.sqrt_eq, Nat.sqrt_one]
  norm_num

lemma ratSqrt_zero : ratSqrt 0 = 0 := by
  unfold ratSqrt
  norm_num

lemma ratSqrt_225 : ratSqrt 225 = 15 := by
  have h : (225 : ℚ) = (15 : ℕ) * (15 : ℕ) := by norm_num
  rw [h, ratSqrt_natCast_sq]
  norm_num

lemma foldl_invariant {α β : Type*} (P : α → Prop) (f : α → β → α) :
    ∀ (l : List β) (a : α), (∀ x b, b ∈ l → P x → P (f x b)) → P a → P (l.foldl f a) := by
  intro l
  induction l with
  | nil => intro a _ ha; exact ha
  | cons hd tl ih =>
      intro a hstep ha
      exact ih (f a hd) (fun x b hb hx => hstep x b (List.mem_cons_of_mem hd hb) hx)
        (hstep a hd (List.mem_cons_self hd tl) ha)

lemma set_getD_self {α : Type*} :
    ∀ (l : List α) (n : ℕ) (d : α), l.set n (l.getD n d) = l := by
  intro l
  induction l with
  | nil => intro n d; rfl
  | cons hd tl ih =>
      intro n d
      cases n with
      | zero => rfl
      | succ m => simpa using ih m d



/-- C3: in a world with gravity `(0, 10)`, `dt = 0.1`, no bounds, one body of
mass `1.0` at `y = 0` with zero velocity and acceleration, one `step()`
yields `velocity.y = 1.0` and `position.y = 0.1` (semi-implicit Euler: the
velocity update is applied before the position update). -/
theorem step_semi_implicit_euler_c3 :
    ((gravityWorld.step).bodies.getD 0 dfltBody).velocity.y = 1 ∧
      ((gravityWorld.step).bodies.getD 0 dfltBody).position.y = 1 / 10 := by
  norm_num [gravityWorld, PhysicsWorld.step, PhysicsWorld.integrateBody,
    PhysicsWorld.resolve_collisions, PhysicsWorld.check_collision,
    PhysicsWorld.resolve_collision, RigidBody.apply_force,
    Vec2.add, Vec2.scale, Vec2.sub, Vec2.dot, Vec2.new, Vec2.ZERO,
    List.range_succ, dfltBody, RigidBody.new]

/-- C4: in a world with bounds `(0, 0, 100, 100)`, zero gravity, `dt = 0.1`,
one body at `(5, 50)` with radius `10`, restitution `0.8`, velocity
`(-100, 0)`, one `step()` crosses the left boundary: afterwards
`position.x = 10` (tangent to the left wall) and `velocity.x > 0` (the x
velocity component is reflected and scaled by restitution). -/
theorem step_left_wall_bounce_c4 :
    ((leftWallWorld.step).bodies.getD 0 dfltBody).position.x = 10 ∧
      ((leftWallWorld.step).bodies.getD 0 dfltBody).velocity.x > 0 := by
  norm_num [leftWallWorld, PhysicsWorld.step, PhysicsWorld.integrateBody,
    PhysicsWorld.boundBody,
    PhysicsWorld.resolve_collisions, PhysicsWorld.check_collision,
    PhysicsWorld.resolve_collision, RigidBody.apply_force,
    Vec2.add, Vec2.scale, Vec2.sub, Vec2.dot, Vec2.new, Vec2.ZERO,
    List.range_succ, dfltBody, RigidBody.new]

lemma Vec2_eta (v : Vec2) : Vec2.mk v.x v.y = v := rfl

lemma RigidBody_eta (b : RigidBody) :
    RigidBody.mk b.position b.velocity b.acceleration b.mass b.restitution b.radius = b := rfl

lemma PhysicsWorld_eta (w : PhysicsWorld) :
    PhysicsWorld.mk w.bodies w.gravity w.dt w.bounds = w := rfl

lemma set_getElem_opt_self {α : Type*} (l : List α) (n : ℕ) (d : α) :
    l.set n (l[n]?.getD d) = l := by
  have := set_getD_self l n d
  simpa [List.getD] using this

lemma normalize_zero_vec : (Vec2.mk 0 0).normalize = Vec2.ZERO := by
  unfold Vec2.normalize Vec2.magnitude
  norm_num [ratSqrt_zero, f32EPSILON]

/-- C1 (the code contradicts it): in `headOnWorld` the two bodies overlap
(`check_collision 0 1 = true`) and approach head-on with equal and opposite
velocities along their line of centers, yet the pairwise collision phase
leaves the world entirely unchanged — in particular both velocities keep
their entry values `(5, 0)` and `(-5, 0)` instead of being exchanged. With
`normal = normalize(pos_b - pos_a)`, the quantity
`dot(vel_a - vel_b, normal)` is positive exactly when the bodies close in
on each other, so the `> 0` early return skips every approaching pair. -/
theorem headon_approach_skipped_c1 :
    headOnWorld.check_collision 0 1 = true ∧
      headOnWorld.resolve_collisions = headOnWorld ∧
      ((headOnWorld.resolve_collisions).bodies.getD 0 dfltBody).velocity = Vec2.new 5 0 ∧
      ((headOnWorld.resolve_collisions).bodies.getD 1 dfltBody).velocity = Vec2.new (-5) 0 := by
  have hres : headOnWorld.resolve_collisions = headOnWorld := by
    norm_num [headOnWorld, PhysicsWorld.resolve_collisions, PhysicsWorld.check_collision,
      PhysicsWorld.resolve_collision, Vec2.normalize, Vec2.magnitude,
      ratSqrt_225, f32EPSILON,
      Vec2.add, Vec2.scale, Vec2.sub, Vec2.dot, Vec2.new, Vec2.ZERO,
      List.range_succ, List.range', dfltBody, RigidBody.new]
  refine ⟨?_, hres, ?_, ?_⟩
  · norm_num [headOnWorld, PhysicsWorld.check_collision, Vec2.sub, Vec2.dot, Vec2.new,
      dfltBody, RigidBody.new]
  · rw [hres]; norm_num [headOnWorld, Vec2.new]
  · rw [hres]; norm_num [headOnWorld, Vec2.new]

/-- C5: whenever `dot(vel_a - vel_b, normalize(pos_b - pos_a)) > 0`,
`resolve_collision` returns the world unchanged: no impulse and no
positional correction is applied to that pair. -/
theorem separating_pairs_skipped_c5 (w : PhysicsWorld) (i j : ℕ)
    (h : ((w.bodies.getD i dfltBody).velocity.sub
            (w.bodies.getD j dfltBody).velocity).dot
          (((w.bodies.getD j dfltBody).position.sub
            (w.bodies.getD i dfltBody).position).normalize) > 0) :
    w.resolve_collision i j = w := by
  unfold PhysicsWorld.resolve_collision
  rw [if_pos h]

/-- Witness for C5 at `headOnWorld`, pair `(0, 1)`: the normal is `(1, 0)`
and `dot(vel_a - vel_b, normal) = 10 > 0`, and the pair is skipped. -/
theorem separating_pairs_skipped_c5_witness :
    ((headOnWorld.bodies.getD 0 dfltBody).velocity.sub
        (headOnWorld.bodies.getD 1 dfltBody).velocity).dot
      (((headOnWorld.bodies.getD 1 dfltBody).position.sub
        (headOnWorld.bodies.getD 0 dfltBody).position).normalize) > 0 ∧
      headOnWorld.resolve_collision 0 1 = headOnWorld := by
  have h : ((headOnWorld.bodies.getD 0 dfltBody).velocity.sub
        (headOnWorld.bodies.getD 1 dfltBody).velocity).dot
      (((headOnWorld.bodies.getD 1 dfltBody).position.sub
        (headOnWorld.bodies.getD 0 dfltBody).position).normalize) > 0 := by
    norm_num [headOnWorld, Vec2.sub, Vec2.dot, Vec2.normalize, Vec2.magnitude,
      ratSqrt_225, f32EPSILON, Vec2.new, dfltBody, RigidBody.new]
  exact ⟨h, separating_pairs_skipped_c5 headOnWorld 0 1 h⟩

/-- C7: for two bodies with coincident centers, the difference vector
normalizes to the zero vector (its magnitude `0` is below `f32::EPSILON`),
so the normal and the impulse are zero and `resolve_collision` leaves the
world unchanged — no field of any body is modified (hence no NaN can be
introduced into any field). -/
theorem coincident_centers_safe_c7 (w : PhysicsWorld) (i j : ℕ)
    (h : (w.bodies.getD i dfltBody).position = (w.bodies.getD j dfltBody).position) :
    ((w.bodies.getD j dfltBody).position.sub
        (w.bodies.getD i dfltBody).position).normalize = Vec2.ZERO ∧
      w.resolve_collision i j = w := by
  have hsub : (w.bodies.getD j dfltBody).position.sub
      (w.bodies.getD i dfltBody).position = Vec2.mk 0 0 := by
    rw [h]; simp [Vec2.sub]
  refine ⟨by rw [hsub]; exact normalize_zero_vec, ?_⟩
  unfold PhysicsWorld.resolve_collision
  simp only [hsub, normalize_zero_vec]
  simp [Vec2.dot, Vec2.scale, Vec2.sub, Vec2.add, Vec2.ZERO, Vec2.magnitude,
    ratSqrt_zero, Vec2_eta, RigidBody_eta, PhysicsWorld_eta,
    set_getElem_opt_self, set_getD_self]

/-- Witness for C7 at `coincidentWorld`, pair `(0, 1)`. -/
theorem coincident_centers_safe_c7_witness :
    (coincidentWorld.bodies.getD 0 dfltBody).position =
        (coincidentWorld.bodies.getD 1 dfltBody).position ∧
      ((coincidentWorld.bodies.getD 1 dfltBody).position.sub
          (coincidentWorld.bodies.getD 0 dfltBody).position).normalize = Vec2.ZERO ∧
      coincidentWorld.resolve_collision 0 1 = coincidentWorld := by
  have h : (coincidentWorld.bodies.getD 0 dfltBody).position =
      (coincidentWorld.bodies.getD 1 dfltBody).position := by
    norm_num [coincidentWorld]
  exact ⟨h, (coincident_centers_safe_c7 coincidentWorld 0 1 h).1,
    (coincident_centers_safe_c7 coincidentWorld 0 1 h).2⟩

lemma check_collision_false_of_separated (w : PhysicsWorld) (i j : ℕ)
    (h : ((w.bodies.getD i dfltBody).radius + (w.bodies.getD j dfltBody).radius) *
          ((w.bodies.getD i dfltBody).radius + (w.bodies.getD j dfltBody).radius) ≤
        ((w.bodies.getD i dfltBody).position.sub (w.bodies.getD j dfltBody).position).dot
          ((w.bodies.getD i dfltBody).position.sub (w.bodies.getD j dfltBody).position)) :
    w.check_collision i j = false := by
  unfold PhysicsWorld.check_collision
  exact decide_eq_false (not_lt.mpr h)

/-- C2: (i) in a world in which every pair `i < j` of bodies is separated
(squared center distance at least the squared sum of radii), the pairwise
collision phase of `step()` leaves the world — all velocities and positions
— unchanged; (ii) for radii that are nonnegative (the builder invariant
keeps them `≥ 0.1`), `check_collision i j` returns `true` exactly when the
Euclidean distance between the two centers is strictly less than the sum of
the two radii. -/
theorem collision_iff_distance_c2 :
    (∀ w : PhysicsWorld,
        (∀ i j : ℕ, i < j → j < w.bodies.length →
          ((w.bodies.getD i dfltBody).radius + (w.bodies.getD j dfltBody).radius) *
            ((w.bodies.getD i dfltBody).radius + (w.bodies.getD j dfltBody).radius) ≤
          ((w.bodies.getD i dfltBody).position.sub (w.bodies.getD j dfltBody).position).dot
            ((w.bodies.getD i dfltBody).position.sub (w.bodies.getD j dfltBody).position)) →
        w.resolve_collisions = w) ∧
    (∀ (w : PhysicsWorld) (i j : ℕ),
        0 ≤ (w.bodies.getD i dfltBody).radius →
        0 ≤ (w.bodies.getD j dfltBody).radius →
        (w.check_collision i j = true ↔
          Real.sqrt ((((w.bodies.getD i dfltBody).position.sub
              (w.bodies.getD j dfltBody).position).dot
              ((w.bodies.getD i dfltBody).position.sub
                (w.bodies.getD j dfltBody).position) : ℚ) : ℝ) <
            (((w.bodies.getD i dfltBody).radius +
                (w.bodies.getD j dfltBody).radius : ℚ) : ℝ))) := by
  constructor
  · intro w hsep
    unfold PhysicsWorld.resolve_collisions
    refine foldl_invariant (fun x => x = w) _ _ w ?_ rfl
    intro x i hi hx
    rw [hx]
    refine foldl_invariant (fun x => x = w) _ _ w ?_ rfl
    intro x j hj hx
    rw [hx]
    have hi' : i < w.bodies.length := List.mem_range.mp hi
    have hj' : i + 1 ≤ j ∧ j < i + 1 + (w.bodies.length - (i + 1)) :=
      List.mem_range'_1.mp hj
    have hij : i < j := by omega
    have hjlen : j < w.bodies.length := by omega
    rw [check_collision_false_of_separated w i j (hsep i j hij hjlen)]
    simp
  · intro w i j hra hrb
    unfold PhysicsWorld.check_collision
    simp only [decide_eq_true_eq]
    have hds : (0 : ℚ) ≤
        ((w.bodies.getD i dfltBody).position.sub (w.bodies.getD j dfltBody).position).dot
          ((w.bodies.getD i dfltBody).position.sub (w.bodies.getD j dfltBody).position) := by
      unfold Vec2.dot
      exact add_nonneg (mul_self_nonneg _) (mul_self_nonneg _)
    rcases eq_or_lt_of_le (add_nonneg hra hrb) with hmd | hmd
    · refine iff_of_false ?_ ?_
      · rw [← hmd]
        simpa using hds
      · rw [← hmd]
        push_cast
        simp
    · have hpos : (0 : ℝ) <
          (((w.bodies.getD i dfltBody).radius + (w.bodies.getD j dfltBody).radius : ℚ) : ℝ) := by
        exact_mod_cast hmd
      rw [Real.sqrt_lt' hpos,
        show ((((w.bodies.getD i dfltBody).radius +
            (w.bodies.getD j dfltBody).radius : ℚ) : ℝ)) ^ 2 =
          ((((w.bodies.getD i dfltBody).radius + (w.bodies.getD j dfltBody).radius) *
            ((w.bodies.getD i dfltBody).radius + (w.bodies.getD j dfltBody).radius) : ℚ) : ℝ) by
          push_cast; ring]
      exact_mod_cast Iff.rfl

/-- Witness for C2 at `apartWorld`: the separated world is left unchanged by
the collision phase, and the pair `(0, 1)` does not check as colliding
(`sqrt 10000 = 100` is not below `10 + 10`). -/
theorem collision_iff_distance_c2_witness :
    apartWorld.resolve_collisions = apartWorld ∧
      apartWorld.check_collision 0 1 = false := by
  constructor
  · apply collision_iff_distance_c2.1
    intro i j hij hj
    have hj2 : j < 2 := by simpa [apartWorld] using hj
    have hi0 : i = 0 := by omega
    have hj1 : j = 1 := by omega
    rw [hi0, hj1]
    norm_num [apartWorld, Vec2.sub, Vec2.dot, Vec2.new, dfltBody, RigidBody.new]
  · have hiff := collision_iff_distance_c2.2 apartWorld 0 1
      (by norm_num [apartWorld, dfltBody, RigidBody.new])
      (by norm_num [apartWorld, dfltBody, RigidBody.new])
    norm_num [apartWorld, Vec2.sub, Vec2.dot, Vec2.new, dfltBody, RigidBody.new] at hiff
    have hsqrt : Real.sqrt (10000 : ℝ) = 100 := by
      rw [show (10000 : ℝ) = 100 ^ 2 by norm_num]
      exact Real.sqrt_sq (by norm_num)
    have hnot : ¬ Real.sqrt (10000 : ℝ) < 20 := by
      rw [hsqrt]; norm_num
    have hfalse : ¬ apartWorld.check_collision 0 1 = true := fun hc => hnot (by
      have := hiff.mp hc
      convert this using 2)
    simpa using hfalse

lemma getD_mem_or_eq {α : Type*} (l : List α) (n : ℕ) (d : α) :
    l.getD n d ∈ l ∨ l.getD n d = d := by
  rcases lt_or_le n l.length with h | h
  · left
    rw [List.getD_eq_getElem l d h]
    exact List.getElem_mem h
  · right
    exact List.getD_eq_default l d h

lemma forall_mem_set {α : Type*} {P : α → Prop} {l : List α} {v : α}
    (h : ∀ b ∈ l, P b) (hv : P v) (n : ℕ) : ∀ b ∈ l.set n v, P b :=
  fun b hb => (List.mem_or_eq_of_mem_set hb).elim (h b) (fun e => e ▸ hv)

lemma accel_getD {l : List RigidBody} (h : ∀ b ∈ l, b.acceleration = Vec2.ZERO)
    (n : ℕ) : (l.getD n dfltBody).acceleration = Vec2.ZERO := by
  rcases getD_mem_or_eq l n dfltBody with hm | he
  · exact h _ hm
  · rw [he]; rfl

lemma resolve_collision_accel (w : PhysicsWorld) (i j : ℕ)
    (h : ∀ b ∈ w.bodies, b.acceleration = Vec2.ZERO) :
    ∀ b ∈ (w.resolve_collision i j).bodies, b.acceleration = Vec2.ZERO := by
  simp only [PhysicsWorld.resolve_collision]
  split_ifs with h1 h2
  · exact h
  · refine forall_mem_set (forall_mem_set (forall_mem_set (forall_mem_set h ?_ i) ?_ j) ?_ i) ?_ j
    · exact accel_getD h i
    · exact accel_getD h j
    · dsimp only
      refine accel_getD ?_ i
      refine forall_mem_set (forall_mem_set h ?_ i) ?_ j
      · exact accel_getD h i
      · exact accel_getD h j
    · dsimp only
      refine accel_getD ?_ j
      refine forall_mem_set (forall_mem_set (forall_mem_set h ?_ i) ?_ j) ?_ i
      · exact accel_getD h i
      · exact accel_getD h j
      · dsimp only
        refine accel_getD ?_ i
        refine forall_mem_set (forall_mem_set h ?_ i) ?_ j
        · exact accel_getD h i
        · exact accel_getD h j
  · refine forall_mem_set (forall_mem_set h ?_ i) ?_ j
    · exact accel_getD h i
    · exact accel_getD h j

lemma resolve_collisions_invariant (P : PhysicsWorld → Prop)
    (hres : ∀ (x : PhysicsWorld) (i j : ℕ), P x → P (x.resolve_collision i j))
    (w : PhysicsWorld) (hw : P w) : P w.resolve_collisions := by
  unfold PhysicsWorld.resolve_collisions
  refine foldl_invariant P _ _ w ?_ hw
  intro x i _ hx
  refine foldl_invariant P _ _ x ?_ hx
  intro y j _ hy
  by_cases hc : y.check_collision i j = true
  · rw [if_pos hc]
    exact hres y i j hy
  · rw [if_neg hc]
    exact hy

lemma boundBody_accel (min_x min_y max_x max_y : ℚ) (b : RigidBody) :
    (PhysicsWorld.boundBody min_x min_y max_x max_y b).acceleration = b.acceleration := by
  simp only [PhysicsWorld.boundBody]
  split_ifs <;> rfl

/-- C8: after every call to `step()`, every body's acceleration is the zero
vector: the integration phase resets it, and neither the boundary phase nor
the pairwise collision phase ever writes an acceleration, so forces applied
via `apply_force` never persist across steps. -/
theorem acceleration_reset_c8 (w : PhysicsWorld) (k : ℕ) :
    ((w.step).bodies.getD k dfltBody).acceleration = Vec2.ZERO := by
  have hstep : ∀ b ∈ (w.step).bodies, b.acceleration = Vec2.ZERO := by
    unfold PhysicsWorld.step
    apply resolve_collisions_invariant
      (fun x => ∀ b ∈ x.bodies, b.acceleration = Vec2.ZERO) resolve_collision_accel
    rcases hb : w.bounds with _ | ⟨mnx, mny, mxx, mxy⟩
    · simp only [hb]
      intro b hbm
      obtain ⟨a, _, rfl⟩ := List.mem_map.mp hbm
      rfl
    · simp only [hb]
      intro b hbm
      obtain ⟨a, ham, rfl⟩ := List.mem_map.mp hbm
      rw [boundBody_accel]
      obtain ⟨c, _, rfl⟩ := List.mem_map.mp ham
      rfl
  rcases getD_mem_or_eq (w.step).bodies k dfltBody with hm | he
  · exact hstep _ hm
  · rw [he]; rfl

lemma resolve_collision_length (w : PhysicsWorld) (i j : ℕ) :
    (w.resolve_collision i j).bodies.length = w.bodies.length := by
  simp only [PhysicsWorld.resolve_collision]
  split_ifs <;> simp [List.length_set]


/-- C9: through a valid handle, `physics_body_x` / `physics_body_y` return
`0.0` for any index at or beyond the number of bodies (a defined zero
default rather than an error), and the indexed body's position component
for an in-range index. -/
theorem out_of_range_query_zero_c9 (w : PhysicsWorld) (index : ℕ) :
    (w.bodies.length ≤ index →
        physics_body_x w index = 0 ∧ physics_body_y w index = 0) ∧
      (index < w.bodies.length →
        physics_body_x w index = (w.bodies.getD index dfltBody).position.x ∧
          physics_body_y w index = (w.bodies.getD index dfltBody).position.y) := by
  constructor
  · intro h
    unfold physics_body_x physics_body_y
    rw [List.get?_eq_none.mpr h]
    exact ⟨rfl, rfl⟩
  · intro h
    unfold physics_body_x physics_body_y
    rw [List.get?_eq_get h, List.getD_eq_getElem w.bodies dfltBody h]
    exact ⟨rfl, rfl⟩

/-- Witness for C9 at `apartWorld` (two bodies): index `5` is out of range
and both queries return `0`; index `1` is in range and `physics_body_x`
returns that body's `position.x = 100`. -/
theorem out_of_range_query_zero_c9_witness :
    (physics_body_x apartWorld 5 = 0 ∧ physics_body_y apartWorld 5 = 0) ∧
      physics_body_x apartWorld 1 = 100 := by
  constructor
  · exact (out_of_range_query_zero_c9 apartWorld 5).1 (by norm_num [apartWorld])
  · have h := ((out_of_range_query_zero_c9 apartWorld 1).2 (by norm_num [apartWorld])).1
    rw [h]
    norm_num [apartWorld, RigidBody.new, Vec2.new]


/-- C6 counterexample: for the input NaN, `with_restitution` stores NaN
(Rust `clamp` propagates a NaN self), which does not lie in `[0, 1]` — the
claim's "for every input value (including ... NaN ...) the restitution lies
in [0.0, 1.0]" is false at this input. -/
theorem with_restitution_nan_c6_cex :
    with_restitution_val FVal.nan = FVal.nan ∧
      fle (FVal.fin 0) (with_restitution_val FVal.nan) = false ∧
      fle (with_restitution_val FVal.nan) (FVal.fin 1) = false :=
  ⟨rfl, rfl, rfl⟩

/-- C6 as amended: for every input value (negative, zero, infinite or NaN),
`with_mass` stores a mass `≥ 0.001`, `with_radius` a radius `≥ 0.1` and
`with_dt` a `dt ≥ 0.001`; and for every non-NaN input `with_restitution`
stores a restitution in `[0.0, 1.0]` (a NaN input propagates NaN through
Rust's `f32::clamp`). Invalid values are clamped, never rejected. -/
theorem builder_clamp_amended_c6 (v : FVal) :
    fle (FVal.fin (1 / 1000)) (with_mass_val v) = true ∧
      fle (FVal.fin (1 / 10)) (with_radius_val v) = true ∧
      fle (FVal.fin (1 / 1000)) (with_dt_val v) = true ∧
      (v ≠ FVal.nan →
        fle (FVal.fin 0) (with_restitution_val v) = true ∧
          fle (with_restitution_val v) (FVal.fin 1) = true) := by
  rcases v with _ | _ | _ | q
  · refine ⟨?_, ?_, ?_, fun h => absurd rfl h⟩ <;>
      norm_num [with_mass_val, with_radius_val, with_dt_val, fmax, flt, fle]
  · refine ⟨?_, ?_, ?_, fun _ => ⟨?_, ?_⟩⟩ <;>
      norm_num [with_mass_val, with_radius_val, with_dt_val, with_restitution_val,
        fmax, fclamp, flt, fle]
  · refine ⟨?_, ?_, ?_, fun _ => ⟨?_, ?_⟩⟩ <;>
      norm_num [with_mass_val, with_radius_val, with_dt_val, with_restitution_val,
        fmax, fclamp, flt, fle]
  · refine ⟨?_, ?_, ?_, fun _ => ⟨?_, ?_⟩⟩
    · simp only [with_mass_val, fmax, flt]
      split_ifs with h <;> simp only [decide_eq_true_eq, not_lt] at h <;>
        simp only [fle, decide_eq_true_eq] <;> linarith
    · simp only [with_radius_val, fmax, flt]
      split_ifs with h <;> simp only [decide_eq_true_eq, not_lt] at h <;>
        simp only [fle, decide_eq_true_eq] <;> linarith
    · simp only [with_dt_val, fmax, flt]
      split_ifs with h <;> simp only [decide_eq_true_eq, not_lt] at h <;>
        simp only [fle, decide_eq_true_eq] <;> linarith
    · simp only [with_restitution_val, fclamp]
      split_ifs with h1 h2 h3 <;>
        simp only [flt, decide_eq_true_eq, not_lt] at * <;>
        simp only [fle, decide_eq_true_eq] <;> linarith
    · simp only [with_restitution_val, fclamp]
      split_ifs with h1 h2 h3 <;>
        simp only [flt, decide_eq_true_eq, not_lt] at * <;>
        simp only [fle, decide_eq_true_eq] <;> linarith

/-- Witness for the amended C6 at the concrete inputs `-5` (a finite
out-of-domain value, clamped) and at the non-NaN hypothesis. -/
theorem builder_clamp_amended_c6_witness :
    fle (FVal.fin (1 / 1000)) (with_mass_val (FVal.fin (-5))) = true ∧
      (FVal.fin (-5) ≠ FVal.nan) ∧
      fle (FVal.fin 0) (with_restitution_val (FVal.fin (-5))) = true := by
  have hne : FVal.fin (-5) ≠ FVal.nan := by simp
  have h := builder_clamp_amended_c6 (FVal.fin (-5))
  exact ⟨h.1, hne, (h.2.2.2 hne).1⟩

lemma field_getD_set (f : RigidBody → ℚ) {l : List RigidBody} {v : RigidBody} {n : ℕ}
    (hv : f v = f (l.getD n dfltBody)) (k : ℕ) :
    f ((l.set n v).getD k dfltBody) = f (l.getD k dfltBody) := by
  rcases eq_or_ne n k with rfl | hne
  · rcases lt_or_le n l.length with hlt | hle
    · rw [List.getD_eq_getElem?_getD, List.getElem?_set_self hlt]
      simpa [List.getD_eq_getElem?_getD] using hv
    · rw [List.set_eq_of_length_le hle]
  · rw [List.getD_eq_getElem?_getD, List.getElem?_set_ne hne, ← List.getD_eq_getElem?_getD]

lemma resolve_collision_preserves_field (f : RigidBody → ℚ)
    (hpos : ∀ (b : RigidBody) (p : Vec2), f { b with position := p } = f b)
    (hvel : ∀ (b : RigidBody) (u : Vec2), f { b with velocity := u } = f b)
    (w : PhysicsWorld) (i j k : ℕ) :
    f ((w.resolve_collision i j).bodies.getD k dfltBody) = f (w.bodies.getD k dfltBody) := by
  simp only [PhysicsWorld.resolve_collision]
  split_ifs with h1 h2
  · rfl
  · exact (field_getD_set f (hpos _ _) k).trans
      ((field_getD_set f (hpos _ _) k).trans
        ((field_getD_set f ((hvel _ _).trans (field_getD_set f (hvel _ _) j).symm) k).trans
          (field_getD_set f (hvel _ _) k)))
  · exact (field_getD_set f ((hvel _ _).trans (field_getD_set f (hvel _ _) j).symm) k).trans
      (field_getD_set f (hvel _ _) k)

lemma field_getD_map {f : RigidBody → ℚ} {g : RigidBody → RigidBody}
    (hg : ∀ b, f (g b) = f b) (l : List RigidBody) (k : ℕ) :
    f ((l.map g).getD k dfltBody) = f (l.getD k dfltBody) := by
  rcases lt_or_le k l.length with hlt | hle
  · rw [List.getD_eq_getElem (l.map g) dfltBody (by simpa using hlt),
      List.getElem_map, List.getD_eq_getElem l dfltBody hlt]
    exact hg _
  · rw [List.getD_eq_default (l.map g) dfltBody (by simpa using hle),
      List.getD_eq_default l dfltBody hle]

lemma boundBody_fields (min_x min_y max_x max_y : ℚ) (b : RigidBody) :
    (PhysicsWorld.boundBody min_x min_y max_x max_y b).mass = b.mass ∧
      (PhysicsWorld.boundBody min_x min_y max_x max_y b).restitution = b.restitution ∧
      (PhysicsWorld.boundBody min_x min_y max_x max_y b).radius = b.radius := by
  refine ⟨?_, ?_, ?_⟩ <;> · simp only [PhysicsWorld.boundBody]; split_ifs <;> rfl

lemma step_preserves_field (f : RigidBody → ℚ)
    (hpos : ∀ (b : RigidBody) (p : Vec2), f { b with position := p } = f b)
    (hvel : ∀ (b : RigidBody) (u : Vec2), f { b with velocity := u } = f b)
    (hint : ∀ (g : Vec2) (dt : ℚ) (b : RigidBody), f (PhysicsWorld.integrateBody g dt b) = f b)
    (hbnd : ∀ (a b c d : ℚ) (x : RigidBody), f (PhysicsWorld.boundBody a b c d x) = f x)
    (w : PhysicsWorld) (k : ℕ) :
    f ((w.step).bodies.getD k dfltBody) = f (w.bodies.getD k dfltBody) := by
  unfold PhysicsWorld.step
  have hinv := resolve_collisions_invariant
    (fun x => ∀ m, f (x.bodies.getD m dfltBody) = f (w.bodies.getD m dfltBody))
    (fun x i j hx m =>
      (resolve_collision_preserves_field f hpos hvel x i j m).trans (hx m))
  rcases hb : w.bounds with _ | ⟨mnx, mny, mxx, mxy⟩
  · simp only [hb]
    exact hinv _ (fun m => field_getD_map (hint w.gravity w.dt) w.bodies m) k
  · simp only [hb]
    refine hinv _ (fun m => ?_) k
    exact (field_getD_map (hbnd mnx mny mxx mxy) _ m).trans
      (field_getD_map (hint w.gravity w.dt) w.bodies m)

/-- C10: `step()` never adds, removes or reorders bodies: the body count is
preserved by one `step()` and by any iterated sequence of `step()` calls,
and the body found at each index `k` after a step is the same body that was
at index `k` before — its immutable identity fields (mass, restitution,
radius), which no phase of `step()` ever writes, are unchanged; only
position, velocity and acceleration are mutated in place. -/
theorem step_identity_c10 :
    (∀ w : PhysicsWorld, (w.step).bodies.length = w.bodies.length) ∧
      (∀ (w : PhysicsWorld) (n : ℕ),
        ((PhysicsWorld.step)^[n] w).bodies.length = w.bodies.length) ∧
      (∀ (w : PhysicsWorld) (k : ℕ),
        ((w.step).bodies.getD k dfltBody).mass = (w.bodies.getD k dfltBody).mass ∧
          ((w.step).bodies.getD k dfltBody).restitution =
            (w.bodies.getD k dfltBody).restitution ∧
          ((w.step).bodies.getD k dfltBody).radius = (w.bodies.getD k dfltBody).radius) := by
  have hone : ∀ w : PhysicsWorld, (w.step).bodies.length = w.bodies.length := by
    intro w
    unfold PhysicsWorld.step
    have hres : ∀ w2 : PhysicsWorld,
        (w2.resolve_collisions).bodies.length = w2.bodies.length := by
      intro w2
      exact resolve_collisions_invariant
        (fun x => x.bodies.length = w2.bodies.length)
        (fun x i j hx => by
          show (x.resolve_collision i j).bodies.length = w2.bodies.length
          rw [resolve_collision_length]
          exact hx) w2 rfl
    rcases hb : w.bounds with _ | ⟨mnx, mny, mxx, mxy⟩
    · simp only [hb, hres, List.length_map]
    · simp only [hb, hres, List.length_map]
  refine ⟨hone, ?_, ?_⟩
  · intro w n
    induction n with
    | zero => rfl
    | succ m ih =>
        rw [Function.iterate_succ_apply', hone, ih]
  · intro w k
    refine ⟨?_, ?_, ?_⟩
    · exact step_preserves_field (fun b => b.mass)
        (fun b p => rfl) (fun b u => rfl) (fun g dt b => rfl)
        (fun a b c d x => (boundBody_fields a b c d x).1) w k
    · exact step_preserves_field (fun b => b.restitution)
        (fun b p => rfl) (fun b u => rfl) (fun g dt b => rfl)
        (fun a b c d x => (boundBody_fields a b c d x).2.1) w k
    · exact step_preserves_field (fun b => b.radius)
        (fun b p => rfl) (fun b u => rfl) (fun g dt b => rfl)
        (fun a b c d x => (boundBody_fields a b c d x).2.2) w k
